import Mathlib

/-!
Shallow embedding of the sweep-procedure control loops in the repository's
`local_experiment` scripts and of the `local_instrument` Yokogawa GS200
driver, for checking the specification's claims about them.

Physical readings are modelled as exact rationals.  An instrument channel is
an environment `ℕ → ℚ` giving the value returned by the i-th read of that
channel during the loop; the operator's stop flag is an environment
`ℕ → Bool` giving the value `should_stop()` returns at its i-th check.
Recursive loop embeddings shift these environments by the number of
reads/checks each iteration consumes, so index 0 is always the next read.
-/

namespace Pymeasure

/-- A Python float as it appears in an emitted record: either a numeric
value or IEEE NaN (`np.nan`, produced by the zero-current guard in
`iv_yokogawa.py`). -/
inductive PyFloat where
  | num (q : ℚ)
  | nan
deriving DecidableEq, Repr

/-- `np.arange start stop step` over exact rationals: the values
`start + k * step` for `0 ≤ k < ⌈(stop - start) / step⌉`, empty when that
quotient is nonpositive (numpy's length rule `ceil((stop-start)/step)`;
`step = 0` is never used by the scripts). -/
def arangeQ (start stop step : ℚ) : List ℚ :=
  (List.range (Int.toNat ⌈(stop - start) / step⌉)).map (fun k => start + (k : ℚ) * step)

/-- The three-leg sweep plan built by `cryo_fieldsweep_4probe.CryoProcedure.execute`
(and likewise by `iv_yokogawa.IVProcedure.execute` over currents):
`np.concatenate((np.arange(0, max, step), np.arange(max, min, -step), np.arange(min, 0, step)))`. -/
def threeLegPlan (maxV minV step : ℚ) : List ℚ :=
  arangeQ 0 maxV step ++ arangeQ maxV minV (-step) ++ arangeQ minV 0 step

/-- The plan built by `cryo_tempfieldsweep_4probe.CryoMeasurementWindow.queue`:
identical to `threeLegPlan` except that the middle leg is
`np.arange(max_field, min_field, field_step)` with a positive step. -/
def tempfieldsweepPlan (maxV minV step : ℚ) : List ℚ :=
  arangeQ 0 maxV step ++ arangeQ maxV minV step ++ arangeQ minV 0 step

/-- One record emitted by `iv_yokogawa.IVProcedure.execute`:
`{'Current (A)': current, 'Voltage (V)': voltage, 'Resistance (ohm)': resistance}`. -/
structure IVRec where
  current : ℚ
  voltage : ℚ
  resistance : PyFloat
deriving DecidableEq, Repr

/-- The per-step record computation of `iv_yokogawa.IVProcedure.execute`
(lines 122–131): `resistance = np.nan if abs(current) <= 1e-10 else
voltage / current`; the record's Current channel is the commanded
setpoint `current` itself. -/
def ivStep (current voltage : ℚ) : IVRec :=
  { current := current
    voltage := voltage
    resistance :=
      if |current| ≤ 1 / 10 ^ 10 then PyFloat.nan else PyFloat.num (voltage / current) }

/-- The main loop of `iv_yokogawa.IVProcedure.execute` (lines 114–136):
for each planned current, set the source, sleep, read the voltage, emit one
record, then check `should_stop()` at the END of the iteration and break if
it is true.  `voltAt i` is the i-th voltmeter read, `stopAt i` the i-th
`should_stop()` poll.  Returns the emitted records in order.  (The
`progress` signal emitted alongside each record is not a Measurement and is
omitted.) -/
def ivExecute : List ℚ → (ℕ → ℚ) → (ℕ → Bool) → List IVRec
  | [], _, _ => []
  | c :: rest, voltAt, stopAt =>
    let r := ivStep c (voltAt 0)
    if stopAt 0 then [r]
    else r :: ivExecute rest (fun n => voltAt (n + 1)) (fun n => stopAt (n + 1))

/-- One record emitted by `cryo_fieldsweep_4probe.CryoProcedure.execute`:
`{"Magnetic Field (T)": field, "Voltage (V)": voltage, "Resistance (ohm)": resistance}`
where `field` is the READBACK `magnet.measured_magnetic_field()` taken just
before emission. -/
structure FieldRec where
  field : ℚ
  voltage : ℚ
  resistance : ℚ
deriving DecidableEq, Repr

/-- Events performed by the embedded loops, in program order.  `checkTol`
is a convergence comparison `|reading - setpoint| < tol`; it is produced by
the startup stabilization loops, which are the only places in the scripts
where a readback is compared against a tolerance. -/
inductive Ev where
  | setField (f : ℚ)
  | sleepDelay
  | readVolt (v : ℚ)
  | readField (f : ℚ)
  | checkTol (reading setpoint tol : ℚ)
  | emitRec (r : FieldRec)
  | checkStop (b : Bool)
  | cancelCleanup
deriving DecidableEq, Repr

/-- How a loop ended: normally, or by the uncaught `ZeroDivisionError`
raised by Python float division `voltage / set_current` when
`set_current == 0`. -/
inductive Outcome where
  | ok
  | raisedZeroDiv
deriving DecidableEq, Repr

/-- The main loop of `cryo_fieldsweep_4probe.CryoProcedure.execute`
(lines 164–182), as the trace of events it performs plus its outcome.
For each planned field: `set_magnetic_field(field)`, a fixed ramp-delay
`sleep(...)` (no readback polling), read the voltage, read the field
readback, compute `resistance = voltage / set_current` (raises
`ZeroDivisionError` when `set_current = 0`), emit the record tagged with
the READBACK, `sleep(20e-3)`, then check `should_stop()`; on stop, run the
cleanup block and break.  No tolerance comparison occurs anywhere in the
loop. -/
def fsExecute : List ℚ → ℚ → (ℕ → ℚ) → (ℕ → ℚ) → (ℕ → Bool) → List Ev × Outcome
  | [], _, _, _, _ => ([], Outcome.ok)
  | f :: rest, setCurrent, voltAt, fieldAt, stopAt =>
    let v := voltAt 0
    let fr := fieldAt 0
    let pre : List Ev := [Ev.setField f, Ev.sleepDelay, Ev.readVolt v, Ev.readField fr]
    if setCurrent = 0 then (pre, Outcome.raisedZeroDiv)
    else if stopAt 0 then
      (pre ++ [Ev.emitRec ⟨fr, v, v / setCurrent⟩, Ev.sleepDelay, Ev.checkStop true,
        Ev.cancelCleanup], Outcome.ok)
    else
      let t := fsExecute rest setCurrent (fun n => voltAt (n + 1)) (fun n => fieldAt (n + 1))
        (fun n => stopAt (n + 1))
      (pre ++ [Ev.emitRec ⟨fr, v, v / setCurrent⟩, Ev.sleepDelay, Ev.checkStop false] ++ t.1,
        t.2)

/-- Is this event an emission? -/
def isEmitEv : Ev → Bool
  | Ev.emitRec _ => true
  | _ => false

/-- Is this event a readback-vs-tolerance convergence check? -/
def isCheckTolEv : Ev → Bool
  | Ev.checkTol _ _ _ => true
  | _ => false

/-- Number of Measurements emitted in an event trace. -/
def emitCount (evs : List Ev) : ℕ := evs.countP isEmitEv

/-- Number of tolerance convergence checks in an event trace. -/
def checkTolCount (evs : List Ev) : ℕ := evs.countP isCheckTolEv

/-- The records emitted in an event trace, in order. -/
def emittedRecs (evs : List Ev) : List FieldRec :=
  evs.filterMap fun e => match e with
    | Ev.emitRec r => some r
    | _ => none

/-- The stabilization-wait loops of `startup` (e.g.
`cryo_fieldsweep_4probe.py` lines 126–132, tolerance `0.05`;
`cryo_fieldsweep_voltage.py` lines 134–140, tolerance `0.005`):
`while True: if abs(read() - setpoint) < tol: break else: sleep(1)`.
Fuel-indexed: returns the trace of checks performed within `fuel`
iterations and whether the loop has exited by then.  The loop has no
timeout parameter: its only exit is the tolerance test succeeding. -/
def settleLoop (readAt : ℕ → ℚ) (sp tol : ℚ) : ℕ → List Ev × Bool
  | 0 => ([], false)
  | fuel + 1 =>
    let rdg := readAt 0
    if |rdg - sp| < tol then ([Ev.checkTol rdg sp tol], true)
    else
      let t := settleLoop (fun n => readAt (n + 1)) sp tol fuel
      (Ev.checkTol rdg sp tol :: Ev.sleepDelay :: t.1, t.2)

/-- One record emitted by `cryo_tempsweep_voltage.CryoProcedure.execute`:
`{"Temperature (K)": temperature, "Voltage (V)": voltage}`. -/
structure TempRec where
  temperature : ℚ
  voltage : ℚ
deriving DecidableEq, Repr

/-- The main loop of `cryo_tempsweep_voltage.CryoProcedure.execute`
(lines 124–148): each iteration sleeps, reads the voltage, reads the
sample temperature (`tempAt` index 0 of this iteration), EMITS the record,
and only then evaluates the two exit conditions: a fresh temperature read
within `0.1` of `max_temperature` (break), else `should_stop()` (break).
Each iteration consumes two temperature reads (record, then exit check).
Fuel-indexed; returns the records emitted. -/
def tsExecute (maxTemp : ℚ) (voltAt tempAt : ℕ → ℚ) (stopAt : ℕ → Bool) : ℕ → List TempRec
  | 0 => []
  | fuel + 1 =>
    let r : TempRec := ⟨tempAt 0, voltAt 0⟩
    if |tempAt 1 - maxTemp| < 1 / 10 then [r]
    else if stopAt 0 then [r]
    else r :: tsExecute maxTemp (fun n => voltAt (n + 1)) (fun n => tempAt (n + 2))
      (fun n => stopAt (n + 1)) fuel

/-- One record emitted by `cryo_lockin_tempsweep_4probe.CryoProcedure.execute`:
`{"Temperature (K)": temperature, "Voltage (V)": voltage, "Resistance (ohm)": voltage * 20}`. -/
structure TempRRec where
  temperature : ℚ
  voltage : ℚ
  resistance : ℚ
deriving DecidableEq, Repr

/-- The main loop of `cryo_lockin_tempsweep_4probe.CryoProcedure.execute`
(lines 129–152): identical control shape to `tsExecute` (emit first, then
the temperature-reached check on a fresh read, then `should_stop()`), with
`resistance = voltage * 20` added to the record. -/
def tsLockinExecute (maxTemp : ℚ) (voltAt tempAt : ℕ → ℚ) (stopAt : ℕ → Bool) :
    ℕ → List TempRRec
  | 0 => []
  | fuel + 1 =>
    let r : TempRRec := ⟨tempAt 0, voltAt 0, voltAt 0 * 20⟩
    if |tempAt 1 - maxTemp| < 1 / 10 then [r]
    else if stopAt 0 then [r]
    else r :: tsLockinExecute maxTemp (fun n => voltAt (n + 1)) (fun n => tempAt (n + 2))
      (fun n => stopAt (n + 1)) fuel

/-- Safety actions taken by the magnet-overheat branch in `startup`. -/
inductive SafetyAction where
  | resetMeter
  | allHeatersOff
  | zeroMagnetCurrent
deriving DecidableEq, Repr

/-- How the magnet temperature ceiling check in `startup` resolves:
`exited acts` models `sys.exit()` after performing `acts` (process
termination, not a raised/reported error), `continued` models falling
through to the rest of `startup`. -/
inductive SafetyOutcome where
  | exited (acts : List SafetyAction)
  | continued
deriving DecidableEq, Repr

/-- The magnet temperature ceiling check of
`cryo_fieldsweep_4probe.CryoProcedure.startup` (lines 139–146, ceiling
`5.1`) and `cryo_fieldsweep_voltage.CryoProcedure.startup` (lines 124–131,
ceiling `5.3`): `if tctrl.get_all_kelvin_reading()[1] > ceiling:
meter.reset(); tctrl.all_heaters_off(); magnet.set_current(0); sys.exit()`.
`startup` contains no `emit` call, so no Measurement is emitted either
way. -/
def magnetSafetyCheck (magnetTemp ceiling : ℚ) : SafetyOutcome :=
  if magnetTemp > ceiling then
    SafetyOutcome.exited
      [SafetyAction.resetMeter, SafetyAction.allHeatersOff, SafetyAction.zeroMagnetCurrent]
  else SafetyOutcome.continued

/-- The `source_level` setter of `local_instrument/Yokogawa_GS200.py`
(lines 76–84): `if level > self.source_range * 1.2: raise ValueError(...)
else: self.write("SOURce:LEVel %g" % level)`.  `Except.error ()` models
the raised `ValueError` (no command written, device level unchanged);
`Except.ok level` models the single `SOURce:LEVel` write with argument
`level`. -/
def sourceLevelSet (srcRange level : ℚ) : Except Unit ℚ :=
  if level > srcRange * (6 / 5) then Except.error ()
  else Except.ok level

/-- Executable check that a list is strictly decreasing (used to state the
monotonicity of the ramp-down leg of a sweep plan). -/
def chainGT : List ℚ → Bool
  | [] => true
  | [_] => true
  | a :: b :: t => decide (b < a) && chainGT (b :: t)

end Pymeasure

namespace Pymeasure

section Claims

attribute [local semireducible] Rat.inv Rat.mul Rat.add Rat.sub Rat.ofScientific

/-- Helper: the stabilization-wait loop never exits while no poll has yet
read a value within tolerance of the setpoint. -/
theorem settleLoop_stuck_of (readAt : ℕ → ℚ) (sp tol : ℚ)
    (h : ∀ n, ¬ |readAt n - sp| < tol) :
    ∀ fuel, (settleLoop readAt sp tol fuel).2 = false := by
  intro fuel
  induction fuel generalizing readAt with
  | zero => rfl
  | succ m ih =>
    simp only [settleLoop]
    rw [if_neg (h 0)]
    exact ih (fun n => readAt (n + 1)) (fun n => h (n + 1))

/-- C4 (amended): the settling phase of `startup` polls the readback at a
hard-coded 1 s interval and its only exit is `|readback - setpoint| < tol`
succeeding at some poll: the loop has exited within `fuel` iterations if
and only if some poll index below `fuel` read a value within tolerance.
No timeout is configurable and no SettleTimeout signal exists, so with a
never-converging readback the loop runs unboundedly and raises nothing. -/
theorem settleLoop_exits_iff_converges (readAt : ℕ → ℚ) (sp tol : ℚ) (fuel : ℕ) :
    (settleLoop readAt sp tol fuel).2 = true ↔ ∃ n, n < fuel ∧ |readAt n - sp| < tol := by
  induction fuel generalizing readAt with
  | zero => simp [settleLoop]
  | succ m ih =>
    simp only [settleLoop]
    by_cases h : |readAt 0 - sp| < tol
    · rw [if_pos h]
      simp only [true_iff]
      exact ⟨0, Nat.succ_pos m, h⟩
    · rw [if_neg h]
      rw [ih (fun n => readAt (n + 1))]
      constructor
      · rintro ⟨n, hn, hlt⟩
        exact ⟨n + 1, Nat.succ_lt_succ hn, hlt⟩
      · rintro ⟨n, hn, hlt⟩
        cases n with
        | zero => exact absurd hlt h
        | succ k => exact ⟨k, Nat.lt_of_succ_lt_succ hn, hlt⟩

/-- Witness for C4 (amended): with an instantly-converging mock readback
(constant 1 against setpoint 1, tolerance 0.5) the wait loop exits within
one poll, via the convergence characterization. -/
theorem settleLoop_exits_iff_converges_witness :
    (settleLoop (fun _ => 1) 1 (1 / 2) 1).2 = true :=
  (settleLoop_exits_iff_converges (fun _ => 1) 1 (1 / 2) 1).mpr
    ⟨0, by decide, by decide⟩

/-- C4 (counterexample to the claim as stated): for a mock adapter whose
readback never converges (constant 0 against setpoint 1, tolerance 0.005 —
the field-settle tolerance of `cryo_fieldsweep_voltage.startup`), there is
NO number of polls after which the wait loop has exited: no timeout can be
provided, the loop runs unboundedly, and no SettleTimeout is ever
raised. -/
theorem settleLoop_no_timeout_cex :
    ¬ ∃ fuel, (settleLoop (fun _ => 0) 1 (1 / 200) fuel).2 = true := by
  rintro ⟨fuel, h⟩
  rw [settleLoop_stuck_of (fun _ => 0) 1 (1 / 200) (fun _ => by norm_num) fuel] at h
  exact Bool.false_ne_true h

/-- C7: evaluating the plan construction of
`cryo_tempfieldsweep_4probe.CryoMeasurementWindow.queue` at its GUI
defaults (`max_field = 1`, `min_field = -1`, `field_step = 0.1`): its
middle leg `np.arange(max_field, min_field, field_step)` uses a POSITIVE
step, so it is empty and the whole ramp from `max_field` down to
`min_field` is silently skipped, while the sibling
`cryo_fieldsweep_4probe.execute` leg `np.arange(max_field, min_field,
-field_step)` at the same inputs is non-empty and strictly decreasing as
the claim states. -/
theorem tempfieldsweep_down_leg_empty :
    tempfieldsweepPlan 1 (-1) (1 / 10) = arangeQ 0 1 (1 / 10) ++ arangeQ (-1) 0 (1 / 10) ∧
    arangeQ 1 (-1) (1 / 10) = [] ∧
    arangeQ 1 (-1) (-(1 / 10)) ≠ [] ∧
    chainGT (arangeQ 1 (-1) (-(1 / 10))) = true := by
  refine ⟨?_, by decide, by decide, by decide⟩
  show arangeQ 0 1 (1 / 10) ++ arangeQ 1 (-1) (1 / 10) ++ arangeQ (-1) 0 (1 / 10) = _
  decide

/-- C8: the magnet temperature ceiling check in `startup`
(`cryo_fieldsweep_4probe` with ceiling 5.1, `cryo_fieldsweep_voltage` with
ceiling 5.3): a magnet kelvin reading strictly above the ceiling resets
the meter, turns all heaters off, zeroes the magnet current and terminates
the process via `sys.exit()` (no raised error, no Measurement emitted);
otherwise startup continues normally. -/
theorem magnetSafetyCheck_branches (t c : ℚ) :
    (c < t → magnetSafetyCheck t c =
      SafetyOutcome.exited
        [SafetyAction.resetMeter, SafetyAction.allHeatersOff, SafetyAction.zeroMagnetCurrent]) ∧
    (t ≤ c → magnetSafetyCheck t c = SafetyOutcome.continued) := by
  constructor
  · intro h
    simp [magnetSafetyCheck, h]
  · intro h
    simp [magnetSafetyCheck, not_lt.mpr h]

/-- Witness for C8: at the `cryo_fieldsweep_4probe` ceiling 5.1, a magnet
reading of 6 K aborts with exactly the three safety actions, and a reading
of 5 K continues. -/
theorem magnetSafetyCheck_branches_witness :
    magnetSafetyCheck 6 (51 / 10) =
      SafetyOutcome.exited
        [SafetyAction.resetMeter, SafetyAction.allHeatersOff, SafetyAction.zeroMagnetCurrent] ∧
    magnetSafetyCheck 5 (51 / 10) = SafetyOutcome.continued :=
  ⟨(magnetSafetyCheck_branches 6 (51 / 10)).1 (by decide),
   (magnetSafetyCheck_branches 5 (51 / 10)).2 (by decide)⟩

/-- C9: the `YokogawaGS200.source_level` setter raises `ValueError` if and
only if the requested level exceeds `1.2 * source_range`; in the error
case no `SOURce:LEVel` command is written, so the output level is
unchanged, and otherwise exactly the requested level is written. -/
theorem sourceLevelSet_guard (srcRange level : ℚ) :
    (sourceLevelSet srcRange level = Except.error () ↔ level > srcRange * (6 / 5)) ∧
    (level ≤ srcRange * (6 / 5) → sourceLevelSet srcRange level = Except.ok level) := by
  unfold sourceLevelSet
  by_cases h : level > srcRange * (6 / 5)
  · simp [h]
  · simp [h, not_lt.1 h]

/-- Witness for C9: with range 1, a requested level of 2 exceeds 1.2 and
raises with nothing written; a level of 1 is within 1.2 and is written. -/
theorem sourceLevelSet_guard_witness :
    sourceLevelSet 1 2 = Except.error () ∧ sourceLevelSet 1 1 = Except.ok 1 :=
  ⟨(sourceLevelSet_guard 1 2).1.mpr (by decide),
   (sourceLevelSet_guard 1 1).2 (by decide)⟩


/-- Helper: `checkTolCount` is additive over trace concatenation. -/
theorem checkTolCount_append (a b : List Ev) :
    checkTolCount (a ++ b) = checkTolCount a + checkTolCount b := by
  simp [checkTolCount, List.countP_append]

/-- Helper: `emitCount` is additive over trace concatenation. -/
theorem emitCount_append (a b : List Ev) :
    emitCount (a ++ b) = emitCount a + emitCount b := by
  simp [emitCount, List.countP_append]

/-- Helper: `emittedRecs` is additive over trace concatenation. -/
theorem emittedRecs_append (a b : List Ev) :
    emittedRecs (a ++ b) = emittedRecs a ++ emittedRecs b := by
  simp [emittedRecs, List.filterMap_append]

/-- Equation: a field-sweep step with `set_current = 0` performs the four
pre-emission events and then raises `ZeroDivisionError`. -/
theorem fsExecute_cons_zero (f : ℚ) (rest : List ℚ) (voltAt fieldAt : ℕ → ℚ)
    (stopAt : ℕ → Bool) :
    fsExecute (f :: rest) 0 voltAt fieldAt stopAt =
      ([Ev.setField f, Ev.sleepDelay, Ev.readVolt (voltAt 0), Ev.readField (fieldAt 0)],
        Outcome.raisedZeroDiv) := by
  simp [fsExecute]

/-- Equation: a field-sweep step whose end-of-iteration `should_stop()`
poll returns true emits its record, then observes the stop, runs the
cleanup block and terminates the loop. -/
theorem fsExecute_cons_stop (f : ℚ) (rest : List ℚ) (c : ℚ) (voltAt fieldAt : ℕ → ℚ)
    (stopAt : ℕ → Bool) (hc : c ≠ 0) (hs : stopAt 0 = true) :
    fsExecute (f :: rest) c voltAt fieldAt stopAt =
      ([Ev.setField f, Ev.sleepDelay, Ev.readVolt (voltAt 0), Ev.readField (fieldAt 0)] ++
        [Ev.emitRec ⟨fieldAt 0, voltAt 0, voltAt 0 / c⟩, Ev.sleepDelay, Ev.checkStop true,
          Ev.cancelCleanup], Outcome.ok) := by
  simp [fsExecute, hc, hs]

/-- Equation: a field-sweep step whose end-of-iteration `should_stop()`
poll returns false emits its record and continues with the rest of the
plan. -/
theorem fsExecute_cons_go (f : ℚ) (rest : List ℚ) (c : ℚ) (voltAt fieldAt : ℕ → ℚ)
    (stopAt : ℕ → Bool) (hc : c ≠ 0) (hs : stopAt 0 = false) :
    fsExecute (f :: rest) c voltAt fieldAt stopAt =
      ([Ev.setField f, Ev.sleepDelay, Ev.readVolt (voltAt 0), Ev.readField (fieldAt 0)] ++
        [Ev.emitRec ⟨fieldAt 0, voltAt 0, voltAt 0 / c⟩, Ev.sleepDelay, Ev.checkStop false] ++
        (fsExecute rest c (fun n => voltAt (n + 1)) (fun n => fieldAt (n + 1))
          (fun n => stopAt (n + 1))).1,
       (fsExecute rest c (fun n => voltAt (n + 1)) (fun n => fieldAt (n + 1))
          (fun n => stopAt (n + 1))).2) := by
  simp [fsExecute, hc, hs]

/-- C1 (amended): the field-sweep execute loop contains no readback-vs-
tolerance convergence check at all — its trace has zero `checkTol` events
for every plan and every environment — and yet every entered step emits
its Measurement (whenever `set_current ≠ 0`, the first iteration emits
regardless of the stop flag).  So Measurements are emitted for setpoints
whose convergence was never checked; the only tolerance checks in the
scripts are the stabilization loops in `startup`. -/
theorem fieldsweep_emits_without_tolerance_check :
    (∀ (fields : List ℚ) (c : ℚ) (voltAt fieldAt : ℕ → ℚ) (stopAt : ℕ → Bool),
      checkTolCount (fsExecute fields c voltAt fieldAt stopAt).1 = 0) ∧
    (∀ (f : ℚ) (rest : List ℚ) (c : ℚ) (voltAt fieldAt : ℕ → ℚ) (stopAt : ℕ → Bool),
      c ≠ 0 → 1 ≤ emitCount (fsExecute (f :: rest) c voltAt fieldAt stopAt).1) := by
  constructor
  · intro fields c voltAt fieldAt stopAt
    induction fields generalizing voltAt fieldAt stopAt with
    | nil => rfl
    | cons f rest ih =>
      by_cases hc : c = 0
      · subst hc
        rw [fsExecute_cons_zero]
        rfl
      · cases hs : stopAt 0 with
        | true =>
          rw [fsExecute_cons_stop f rest c voltAt fieldAt stopAt hc hs]
          rfl
        | false =>
          rw [fsExecute_cons_go f rest c voltAt fieldAt stopAt hc hs,
            checkTolCount_append, checkTolCount_append, ih]
          rfl
  · intro f rest c voltAt fieldAt stopAt hc
    cases hs : stopAt 0 with
    | true =>
      rw [fsExecute_cons_stop f rest c voltAt fieldAt stopAt hc hs]
      exact Nat.le_refl 1
    | false =>
      rw [fsExecute_cons_go f rest c voltAt fieldAt stopAt hc hs,
        emitCount_append, emitCount_append]
      have h1 : emitCount [Ev.setField f, Ev.sleepDelay, Ev.readVolt (voltAt 0),
          Ev.readField (fieldAt 0)] = 0 := rfl
      have h2 : emitCount [Ev.emitRec ⟨fieldAt 0, voltAt 0, voltAt 0 / c⟩, Ev.sleepDelay,
          Ev.checkStop false] = 1 := rfl
      omega

/-- Witness for C1 (amended): a concrete 2-point field sweep performs no
tolerance check and its first step emits. -/
theorem fieldsweep_emits_without_tolerance_check_witness :
    checkTolCount (fsExecute [2, 3] 1 (fun _ => 0) (fun _ => 0) (fun _ => false)).1 = 0 ∧
    1 ≤ emitCount (fsExecute (2 :: [3]) 1 (fun _ => 0) (fun _ => 0) (fun _ => false)).1 :=
  ⟨fieldsweep_emits_without_tolerance_check.1 [2, 3] 1 (fun _ => 0) (fun _ => 0)
      (fun _ => false),
   fieldsweep_emits_without_tolerance_check.2 2 [3] 1 (fun _ => 0) (fun _ => 0)
      (fun _ => false) (by decide)⟩

/-- C1 (counterexample to the claim as stated): a concrete field-sweep run
(one setpoint 0.1 T, readback environment returning 7 T, `set_current = 1`,
no stop request) emits a Measurement although its event trace contains no
readback-vs-tolerance check at all, so the governing setpoint was never
confirmed converged before emission. -/
theorem fieldsweep_unchecked_emission_cex :
    emitCount (fsExecute [1 / 10] 1 (fun _ => 1) (fun _ => 7) (fun _ => false)).1 = 1 ∧
    checkTolCount (fsExecute [1 / 10] 1 (fun _ => 1) (fun _ => 7) (fun _ => false)).1 = 0 := by
  decide

/-- Helper: when the stop flag becomes true exactly from poll index `j`
on, the IV sweep runs iterations `0..min j (N-1)` and emits one record in
each, because the flag is polled at the END of each iteration, after that
iteration's emission. -/
theorem ivExecute_length_stopsFrom (plan : List ℚ) (voltAt : ℕ → ℚ) (stopAt : ℕ → Bool)
    (j : ℕ) (h : ∀ i, stopAt i = decide (j ≤ i)) :
    (ivExecute plan voltAt stopAt).length = min (j + 1) plan.length := by
  induction plan generalizing voltAt stopAt j with
  | nil => simp [ivExecute]
  | cons c rest ih =>
    cases j with
    | zero =>
      have hs : stopAt 0 = true := by rw [h 0]; simp
      simp [ivExecute, hs]
    | succ k =>
      have hs : stopAt 0 = false := by rw [h 0]; simp
      have hrec : ∀ i, stopAt (i + 1) = decide (k ≤ i) := by
        intro i
        rw [h (i + 1)]
        simp [Nat.succ_le_succ_iff]
      simp only [ivExecute, hs, Bool.false_eq_true, if_false, List.length_cons]
      rw [ih (fun n => voltAt (n + 1)) (fun n => stopAt (n + 1)) k hrec]
      omega

/-- C2 (amended): cancellation is polled at the END of each loop
iteration, after that iteration's Measurement has been emitted.  If the
stop flag is first observed true at the poll of iteration j (0-indexed),
the IV sweep over an N-point plan emits exactly `min (j+1) N`
Measurements; in particular a cancellation already pending before the loop
begins still yields 1 emission, and the field sweep likewise emits its
first record before observing a pending stop. -/
theorem sweep_cancellation_polled_after_emit :
    (∀ (plan : List ℚ) (voltAt : ℕ → ℚ) (stopAt : ℕ → Bool) (j : ℕ),
      (∀ i, stopAt i = decide (j ≤ i)) →
      (ivExecute plan voltAt stopAt).length = min (j + 1) plan.length) ∧
    (∀ (f : ℚ) (rest : List ℚ) (c : ℚ) (voltAt fieldAt : ℕ → ℚ), c ≠ 0 →
      emitCount (fsExecute (f :: rest) c voltAt fieldAt (fun _ => true)).1 = 1) := by
  constructor
  · exact ivExecute_length_stopsFrom
  · intro f rest c voltAt fieldAt hc
    rw [fsExecute_cons_stop f rest c voltAt fieldAt (fun _ => true) hc rfl]
    rfl

/-- Witness for C2: stop flag true from poll 1 on a 3-point plan gives
exactly 2 emissions, and a field-sweep step with a stop already pending
still emits 1 record. -/
theorem sweep_cancellation_polled_after_emit_witness :
    (ivExecute [5, 7, 9] (fun _ => 0) (fun i => decide (1 ≤ i))).length =
      min (1 + 1) ([5, 7, 9] : List ℚ).length ∧
    emitCount (fsExecute [4] 1 (fun _ => 0) (fun _ => 0) (fun _ => true)).1 = 1 :=
  ⟨sweep_cancellation_polled_after_emit.1 [5, 7, 9] (fun _ => 0) (fun i => decide (1 ≤ i)) 1
      (fun _ => rfl),
   sweep_cancellation_polled_after_emit.2 4 [] 1 (fun _ => 0) (fun _ => 0) (by decide)⟩

/-- C2 (counterexample to the claim as stated): with cancellation already
requested before the loop begins (stop flag constantly true — the k = 0
instance of "requested between steps k and k+1"), the IV sweep still
emits 1 Measurement, not the 0 the claim requires, because the stop flag
is polled only after each emission. -/
theorem sweep_cancellation_before_loop_cex :
    (ivExecute [1 / 1000, 2 / 1000] (fun _ => 1) (fun _ => true)).length ≠ 0 ∧
    (ivExecute [1 / 1000, 2 / 1000] (fun _ => 1) (fun _ => true)).length = 1 := by
  decide

/-- C3 (amended): only the IV sweep guards a zero reference current: with
`|current| ≤ 1e-10` its emitted record reports Resistance = NaN and no
exception occurs (the loop is total).  The 4-probe field sweep divides the
measured voltage by `set_current` unguarded, so with a zero reference
current it raises `ZeroDivisionError` on the first step and emits no
Measurement at all. -/
theorem zero_reference_current_handling :
    (∀ c v : ℚ, |c| ≤ 1 / 10 ^ 10 → (ivStep c v).resistance = PyFloat.nan) ∧
    (∀ (fields : List ℚ) (voltAt fieldAt : ℕ → ℚ) (stopAt : ℕ → Bool), fields ≠ [] →
      (fsExecute fields 0 voltAt fieldAt stopAt).2 = Outcome.raisedZeroDiv ∧
      emitCount (fsExecute fields 0 voltAt fieldAt stopAt).1 = 0) := by
  constructor
  · intro c v h
    show (if |c| ≤ 1 / 10 ^ 10 then PyFloat.nan else PyFloat.num (v / c)) = PyFloat.nan
    exact if_pos h
  · intro fields voltAt fieldAt stopAt hne
    cases fields with
    | nil => exact absurd rfl hne
    | cons f rest =>
      rw [fsExecute_cons_zero]
      exact ⟨rfl, rfl⟩

/-- Witness for C3: a zero commanded current in the IV sweep yields a NaN
resistance record, and a field sweep with `set_current = 0` raises on its
first step having emitted nothing. -/
theorem zero_reference_current_handling_witness :
    (ivStep 0 1).resistance = PyFloat.nan ∧
    ((fsExecute [1 / 2] 0 (fun _ => 3) (fun _ => 4) (fun _ => false)).2 =
        Outcome.raisedZeroDiv ∧
      emitCount (fsExecute [1 / 2] 0 (fun _ => 3) (fun _ => 4) (fun _ => false)).1 = 0) :=
  ⟨zero_reference_current_handling.1 0 1 (by decide),
   zero_reference_current_handling.2 [1 / 2] (fun _ => 3) (fun _ => 4) (fun _ => false)
     (by decide)⟩

/-- C3 (counterexample to the claim as stated): the 4-probe field sweep —
a sweep variant that emits a Resistance channel — run with reference
current 0 and voltage 1 raises `ZeroDivisionError` instead of emitting a
Measurement whose Resistance is NaN. -/
theorem zero_reference_current_raises_cex :
    (fsExecute [1 / 10] 0 (fun _ => 1) (fun _ => 1 / 10) (fun _ => false)).2 =
      Outcome.raisedZeroDiv ∧
    emitCount (fsExecute [1 / 10] 0 (fun _ => 1) (fun _ => 1 / 10) (fun _ => false)).1 = 0 := by
  decide

/-- Helper: with no stop request the IV sweep emits exactly one record per
planned current, in plan order, each tagged with its commanded current. -/
theorem ivExecute_noStop_map_current (plan : List ℚ) (voltAt : ℕ → ℚ) :
    (ivExecute plan voltAt (fun _ => false)).map IVRec.current = plan := by
  induction plan generalizing voltAt with
  | nil => rfl
  | cons c rest ih =>
    simp only [ivExecute, Bool.false_eq_true, if_false, List.map_cons]
    rw [ih (fun n => voltAt (n + 1))]
    rfl

/-- Helper: with no stop request and a nonzero reference current the field
sweep emits exactly one record per planned field. -/
theorem fsExecute_noStop_emitCount (fields : List ℚ) (c : ℚ) (voltAt fieldAt : ℕ → ℚ)
    (hc : c ≠ 0) :
    emitCount (fsExecute fields c voltAt fieldAt (fun _ => false)).1 = fields.length := by
  induction fields generalizing voltAt fieldAt with
  | nil => rfl
  | cons f rest ih =>
    rw [fsExecute_cons_go f rest c voltAt fieldAt (fun _ => false) hc rfl,
      emitCount_append, emitCount_append,
      ih (fun n => voltAt (n + 1)) (fun n => fieldAt (n + 1))]
    have h1 : emitCount [Ev.setField f, Ev.sleepDelay, Ev.readVolt (voltAt 0),
        Ev.readField (fieldAt 0)] = 0 := rfl
    have h2 : emitCount [Ev.emitRec ⟨fieldAt 0, voltAt 0, voltAt 0 / c⟩, Ev.sleepDelay,
        Ev.checkStop false] = 1 := rfl
    rw [h1, h2, List.length_cons]
    omega

/-- C5: with no cancellation and no fault, each sweep emits one
Measurement per setpoint in plan order: the IV sweep's emitted records map
back exactly to its plan (same length, same order, each tagged with its
setpoint), and the field sweep (with a nonzero reference current, i.e. no
fault) emits exactly one record per planned field. -/
theorem run_covers_plan_in_order :
    (∀ (plan : List ℚ) (voltAt : ℕ → ℚ),
      (ivExecute plan voltAt (fun _ => false)).map IVRec.current = plan) ∧
    (∀ (fields : List ℚ) (c : ℚ) (voltAt fieldAt : ℕ → ℚ), c ≠ 0 →
      emitCount (fsExecute fields c voltAt fieldAt (fun _ => false)).1 = fields.length) :=
  ⟨ivExecute_noStop_map_current,
   fun fields c voltAt fieldAt hc => fsExecute_noStop_emitCount fields c voltAt fieldAt hc⟩

/-- Witness for C5: a 2-point IV plan yields records tagged [3, 4] in
order, and a 2-point field sweep with unit reference current emits 2
records. -/
theorem run_covers_plan_in_order_witness :
    (ivExecute [3, 4] (fun _ => 7) (fun _ => false)).map IVRec.current = [3, 4] ∧
    emitCount (fsExecute [5, 6] 1 (fun _ => 7) (fun _ => 8) (fun _ => false)).1 =
      ([5, 6] : List ℚ).length :=
  ⟨run_covers_plan_in_order.1 [3, 4] (fun _ => 7),
   run_covers_plan_in_order.2 [5, 6] 1 (fun _ => 7) (fun _ => 8) (by decide)⟩

/-- Helper: with no stop request and a nonzero reference current, the
field values recorded in the field sweep's emitted records are the
successive READBACKS `fieldAt 0, fieldAt 1, ...`, not the commanded
setpoints. -/
theorem fsExecute_noStop_field_tags (fields : List ℚ) (c : ℚ) (voltAt fieldAt : ℕ → ℚ)
    (hc : c ≠ 0) :
    (emittedRecs (fsExecute fields c voltAt fieldAt (fun _ => false)).1).map FieldRec.field =
      (List.range fields.length).map fieldAt := by
  induction fields generalizing voltAt fieldAt with
  | nil => rfl
  | cons f rest ih =>
    rw [fsExecute_cons_go f rest c voltAt fieldAt (fun _ => false) hc rfl,
      emittedRecs_append, emittedRecs_append]
    have hpre : emittedRecs [Ev.setField f, Ev.sleepDelay, Ev.readVolt (voltAt 0),
        Ev.readField (fieldAt 0)] = [] := rfl
    have hmid : emittedRecs [Ev.emitRec ⟨fieldAt 0, voltAt 0, voltAt 0 / c⟩, Ev.sleepDelay,
        Ev.checkStop false] = [⟨fieldAt 0, voltAt 0, voltAt 0 / c⟩] := rfl
    rw [hpre, hmid, List.length_cons, List.range_succ_eq_map]
    simp only [List.nil_append, List.cons_append, List.map_cons, List.map_map, List.nil_append]
    rw [ih (fun n => voltAt (n + 1)) (fun n => fieldAt (n + 1))]
    simp [Function.comp_def]

/-- C6 (amended): the IV sweep tags each emitted record with the commanded
setpoint (the record's Current channel is exactly the planned current),
but the field sweep tags each record with the magnet's measured READBACK
at capture time (`magnet.measured_magnetic_field()`), which need not equal
the commanded setpoint of that step. -/
theorem record_setpoint_tagging :
    (∀ c v : ℚ, (ivStep c v).current = c) ∧
    (∀ (fields : List ℚ) (c : ℚ) (voltAt fieldAt : ℕ → ℚ), c ≠ 0 →
      (emittedRecs (fsExecute fields c voltAt fieldAt (fun _ => false)).1).map
        FieldRec.field = (List.range fields.length).map fieldAt) := by
  constructor
  · intro c v
    rfl
  · intro fields c voltAt fieldAt hc
    exact fsExecute_noStop_field_tags fields c voltAt fieldAt hc

/-- Witness for C6: commanded current 3 is recorded as Current 3 in the IV
record, and a one-step field sweep whose readback environment returns 9
records field 9. -/
theorem record_setpoint_tagging_witness :
    (ivStep 3 5).current = 3 ∧
    (emittedRecs (fsExecute [2] 1 (fun _ => 5) (fun _ => 9) (fun _ => false)).1).map
      FieldRec.field = (List.range ([2] : List ℚ).length).map (fun _ => (9 : ℚ)) :=
  ⟨record_setpoint_tagging.1 3 5,
   record_setpoint_tagging.2 [2] 1 (fun _ => 5) (fun _ => 9) (by decide)⟩

/-- C6 (counterexample to the claim as stated): a field-sweep step whose
commanded setpoint is 0.5 T but whose readback environment returns 42 T
emits a record whose Magnetic Field channel is 42, not the commanded
setpoint — emitted records are tagged with the readback, not the
setpoint. -/
theorem record_not_tagged_with_setpoint_cex :
    (emittedRecs (fsExecute [1 / 2] 1 (fun _ => 3) (fun _ => 42) (fun _ => false)).1).map
      FieldRec.field = [42] ∧ (42 : ℚ) ≠ 1 / 2 := by
  decide

/-- C10: in both temperature-sweep execute loops
(`cryo_tempsweep_voltage` and `cryo_lockin_tempsweep_4probe`), each
iteration emits its Measurement BEFORE evaluating either exit condition,
so any run that enters the main loop (fuel ≥ 1) has its first record
emitted — with the values read in iteration 0 — for every environment,
including those where the target temperature is already satisfied at
entry or a stop is pending before the loop begins. -/
theorem tempsweep_emit_precedes_exit_checks (maxTemp : ℚ) (voltAt tempAt : ℕ → ℚ)
    (stopAt : ℕ → Bool) (fuel : ℕ) (h : 1 ≤ fuel) :
    (tsExecute maxTemp voltAt tempAt stopAt fuel).head? = some ⟨tempAt 0, voltAt 0⟩ ∧
    (tsLockinExecute maxTemp voltAt tempAt stopAt fuel).head? =
      some ⟨tempAt 0, voltAt 0, voltAt 0 * 20⟩ := by
  cases fuel with
  | zero => exact absurd h (by simp)
  | succ m =>
    constructor
    · simp only [tsExecute]
      split
      · rfl
      · split
        · rfl
        · rfl
    · simp only [tsLockinExecute]
      split
      · rfl
      · split
        · rfl
        · rfl

/-- Witness for C10: with the target temperature already satisfied at
entry (reading 10 against target 10) AND a stop pending before the loop,
both temperature-sweep loops still emit their first record. -/
theorem tempsweep_emit_precedes_exit_checks_witness :
    (tsExecute 10 (fun _ => 1) (fun _ => 10) (fun _ => true) 1).head? = some ⟨10, 1⟩ ∧
    (tsLockinExecute 10 (fun _ => 1) (fun _ => 10) (fun _ => true) 1).head? =
      some ⟨10, 1, 1 * 20⟩ :=
  tempsweep_emit_precedes_exit_checks 10 (fun _ => 1) (fun _ => 10) (fun _ => true) 1
    (by decide)

end Claims

end Pymeasure
